import Mathlib

/-!
Verification development for the MyTrail route-candidate construction and
geometric optimization pipeline.

The Python backend is shallowly embedded here:

* `two_opt_optimizer.py` — geometry kernel (`orientation`, `on_segment`,
  `segments_intersect`) and the crossing-removal optimizer
  (`optimize_waypoint_order_by_two_opt`).  Python floats are modelled as
  rationals (`ℚ`): every coordinate appearing in the theorems below is a
  small integer, so float evaluation in the source is exact and agrees with
  the rational model.  The source's unbounded `while improved:` loop is
  modelled with an explicit fuel parameter; `none` means the loop has not
  reached a clean scan within the given fuel (in particular, an input on
  which the result is `none` for *every* fuel makes the Python loop run
  forever).
* `ranking_service.py` — `RouteRankingService.rank_routes`.  Python float
  scores are modelled by `FVal` (NaN, ±infinity, or a finite rational) with
  the IEEE `<` comparison; CPython's `sorted(key=..., reverse=True)` is a
  stable descending sort, modelled by the insertion sort `sortDesc` (stable
  sorts under one total key order agree, so the model matches CPython for
  score lists without NaN).
* `generation_service.py` — `RouteGenerationService.generate_candidate_routes`
  with its providers (`find_nearby_places`, `get_directions`), random draws
  (`random.randint`, `random.sample`) and the transcendental bearing key
  abstracted as explicit function parameters (oracles).
* `response_builder.py` and `route_service.py` — `build_response` and
  `RouteService.generate_routes`.
-/

namespace MyTrail

/-! ### Geometry kernel (`two_opt_optimizer.py`) -/

/-- A point as extracted by `_extract_point`: the `(lat, lng)` pair. -/
abbrev Point : Type := ℚ × ℚ

/-- The tolerance `1e-12` used by `_orientation` and `_on_segment`. -/
def eps : ℚ := 1 / 1000000000000

/-- `_orientation(a, b, c)`: `0` collinear (within `eps`), `1` clockwise,
`2` counter-clockwise. -/
def orientation (a b c : Point) : ℕ :=
  let val := (b.2 - a.2) * (c.1 - b.1) - (b.1 - a.1) * (c.2 - b.2)
  if |val| < eps then 0
  else if 0 < val then 1 else 2

/-- `_on_segment(a, b, c)`: `b` lies in the bounding box of `a` and `c`,
widened by `eps`. -/
def on_segment (a b c : Point) : Bool :=
  decide (min a.1 c.1 - eps ≤ b.1) && decide (b.1 ≤ max a.1 c.1 + eps) &&
  decide (min a.2 c.2 - eps ≤ b.2) && decide (b.2 ≤ max a.2 c.2 + eps)

/-- `_segments_intersect(p1, p2, p3, p4)`: orientation-based segment
intersection test with collinear-overlap handling. -/
def segments_intersect (p1 p2 p3 p4 : Point) : Bool :=
  let o1 := orientation p1 p2 p3
  let o2 := orientation p1 p2 p4
  let o3 := orientation p3 p4 p1
  let o4 := orientation p3 p4 p2
  (o1 != o2 && o3 != o4) ||
  (o1 == 0 && on_segment p1 p3 p2) ||
  (o2 == 0 && on_segment p1 p4 p2) ||
  (o3 == 0 && on_segment p3 p1 p4) ||
  (o4 == 0 && on_segment p3 p2 p4)

/-! ### Waypoints -/

/-- A location dictionary `{lat, lng}`. -/
structure LocationPt where
  lat : ℚ
  lng : ℚ
deriving DecidableEq, Repr

/-- A place dictionary as produced by the place provider and tagged by the
sampler (`place["search_category"] = category`). -/
structure Place where
  place_id : String
  name : String
  category : String
  location : LocationPt
  rating : ℚ
  distance_km : ℚ
  search_category : String
deriving DecidableEq, Repr

/-- `_extract_point(waypoint)`: the `(lat, lng)` pair of the waypoint. -/
def extract_point (w : Place) : Point := (w.location.lat, w.location.lng)

/-- Placeholder used for (never reached) out-of-bounds list reads. -/
def placeholderPlace : Place :=
  { place_id := "", name := "", category := "", location := ⟨0, 0⟩,
    rating := 0, distance_km := 0, search_category := "" }

/-- The point of the `i`-th waypoint of the working list. -/
def pa (l : List Place) (i : ℕ) : Point := extract_point (l.getD i placeholderPlace)

/-- The intersection test between edges `(i, i+1)` and `(j, j+1)` of the
working list, exactly as invoked inside the scan loops. -/
def segPair (l : List Place) (i j : ℕ) : Bool :=
  segments_intersect (pa l i) (pa l (i + 1)) (pa l j) (pa l (j + 1))

/-! ### The scan-and-reverse loop of `optimize_waypoint_order_by_two_opt` -/

/-- The inner loop `for j in range(i+2, len-1)`: first `j` in the given list
with edges `(i, i+1)` and `(j, j+1)` intersecting. -/
def firstJ (l : List Place) (i : ℕ) : List ℕ → Option ℕ
  | [] => none
  | j :: js => if segPair l i j then some j else firstJ l i js

/-- The range of the inner loop: `range(i+2, len(l) - 1)`. -/
def jRange (l : List Place) (i : ℕ) : List ℕ :=
  List.range' (i + 2) (l.length - 1 - (i + 2))

/-- The outer loop `for i in range(len-3)` over the given list of `i`
values: the first intersecting pair `(i, j)` in scan order. -/
def firstI (l : List Place) : List ℕ → Option (ℕ × ℕ)
  | [] => none
  | i :: is =>
    match firstJ l i (jRange l i) with
    | some j => some (i, j)
    | none => firstI l is

/-- One full scan: the first intersecting non-adjacent edge pair, if any. -/
def findCross (l : List Place) : Option (ℕ × ℕ) :=
  firstI l (List.range (l.length - 3))

/-- `optimized[i+1 : j+1] = reversed(optimized[i+1 : j+1])`. -/
def reverseSegment (l : List Place) (i j : ℕ) : List Place :=
  l.take (i + 1) ++ ((l.drop (i + 1)).take (j - i)).reverse ++ l.drop (j + 1)

/-- One iteration of the `while improved:` body: `none` when a full scan
finds no intersecting pair, otherwise the list after the first reversal. -/
def twoOptStep (l : List Place) : Option (List Place) :=
  (findCross l).map (fun ij => reverseSegment l ij.1 ij.2)

/-- The `while improved:` loop with explicit fuel; `none` models a loop that
has not terminated within `fuel` reversal moves. -/
def optimizeLoop : ℕ → List Place → Option (List Place)
  | 0, _ => none
  | fuel + 1, l =>
    match twoOptStep l with
    | none => some l
    | some l' => optimizeLoop fuel l'

/-- `optimize_waypoint_order_by_two_opt(waypoints)`: sequences shorter than
4 are returned unchanged, otherwise the scan-and-reverse loop runs. -/
def optimize_waypoint_order_by_two_opt (fuel : ℕ) (waypoints : List Place) :
    Option (List Place) :=
  if waypoints.length < 4 then some waypoints
  else optimizeLoop fuel waypoints

/-- No two non-adjacent edges `(i, i+1)`, `(j, j+1)` with `j ≥ i+2` of the
sequence satisfy `segments_intersect`. -/
def NoCross (l : List Place) : Prop :=
  ∀ i j : ℕ, i + 2 ≤ j → j + 1 < l.length → segPair l i j = false

/-! ### Concrete optimizer inputs -/

/-- A place lying on the line `lng = 0` at latitude `x`. -/
def colPlace (s : String) (x : ℚ) : Place :=
  { place_id := s, name := s, category := "park", location := ⟨x, 0⟩,
    rating := 4, distance_km := 1, search_category := "park" }

/-- Four collinear waypoints visited in the order `0, 2, 3, 1`. -/
def loopInputA : List Place :=
  [colPlace "a" 0, colPlace "b" 2, colPlace "c" 3, colPlace "d" 1]

/-- The state the scan-and-reverse loop moves `loopInputA` to; one further
move takes it back to `loopInputA`. -/
def loopInputB : List Place :=
  [colPlace "a" 0, colPlace "c" 3, colPlace "b" 2, colPlace "d" 1]

/-- A four-point "bowtie" whose direct ordering self-intersects. -/
def bowtie : List Place :=
  [{ place_id := "w", name := "w", category := "park", location := ⟨0, 0⟩,
     rating := 4, distance_km := 1, search_category := "park" },
   { place_id := "x", name := "x", category := "park", location := ⟨1, 1⟩,
     rating := 4, distance_km := 1, search_category := "nature" },
   { place_id := "y", name := "y", category := "park", location := ⟨1, 0⟩,
     rating := 4, distance_km := 1, search_category := "park" },
   { place_id := "z", name := "z", category := "park", location := ⟨0, 1⟩,
     rating := 4, distance_km := 1, search_category := "attraction" }]

/-- The non-crossing reordering the optimizer produces for `bowtie`. -/
def bowtieFixed : List Place :=
  [bowtie.getD 0 placeholderPlace, bowtie.getD 2 placeholderPlace,
   bowtie.getD 1 placeholderPlace, bowtie.getD 3 placeholderPlace]

/-! ### Float scores (`ranking_service.py`)

Python float scores are modelled by `FVal`; `flt` is the IEEE-754 `<`
comparison (every comparison involving NaN is false). -/

/-- A Python float score: NaN, `+inf`, `-inf`, or a finite value. -/
inductive FVal where
  | nan : FVal
  | inf : FVal
  | ninf : FVal
  | fin (q : ℚ) : FVal
deriving DecidableEq, Repr

/-- IEEE-754 `<` on float scores. -/
def flt : FVal → FVal → Bool
  | .nan, _ => false
  | _, .nan => false
  | .inf, _ => false
  | .ninf, .ninf => false
  | .ninf, _ => true
  | .fin _, .inf => true
  | .fin q, .fin r => decide (q < r)
  | .fin _, .ninf => false

/-- The rational carried by a finite float score (`0` otherwise). -/
def qOf : FVal → ℚ
  | .fin q => q
  | _ => 0

/-! ### Route-candidate data model -/

/-- `RouteCriteria` as used by the generation pipeline: center, radius,
route type; echoed unchanged into each candidate. -/
structure Criteria where
  center : LocationPt
  radius_km : ℚ
  route_type : String
deriving DecidableEq, Repr

/-- The `route_info` sub-dictionary of a candidate (provider data). -/
structure RouteInfo where
  overview_polyline : String
  duration : String
  distance : ℤ
  viewport : String
deriving DecidableEq, Repr

/-- The `waypoints` sub-dictionary of a candidate. -/
structure WaypointsBlock where
  count : ℕ
  places : List Place
  place_ids : List String
deriving DecidableEq, Repr

/-- The `metadata` sub-dictionary of a candidate. -/
structure RouteMeta where
  center : Point
  search_radius_km : ℚ
  route_type : String
  categories_used : List String
deriving DecidableEq, Repr

/-- A candidate route dictionary as built by `generate_candidate_routes`.
The generator does not put a `"score"` key into the dictionary, so the
`score` field is an `Option`: `none` models the absent key. -/
structure RouteCand where
  id : String
  route_info : RouteInfo
  waypoints : WaypointsBlock
  metadata : RouteMeta
  criteria : Criteria
  score : Option FVal
deriving DecidableEq, Repr

/-! ### `RouteRankingService.rank_routes` -/

/-- `route["score"] = float(score)`. -/
def setScore (r : RouteCand) (s : FVal) : RouteCand := { r with score := some s }

/-- The sort key `route.get("score", 0.0)`. -/
def scoreKey (r : RouteCand) : FVal := r.score.getD (.fin 0)

/-- The write-back loop `for route, score in zip(routes, scores)`:
candidates beyond the score list keep their previous score field. -/
def writeScores : List RouteCand → List FVal → List RouteCand
  | [], _ => []
  | r :: rs, [] => r :: rs
  | r :: rs, s :: ss => setScore r s :: writeScores rs ss

/-- Insert into a descending-sorted list, after every element whose key is
strictly greater, before the first that is not: the placement CPython's
stable `sorted(key=..., reverse=True)` gives an element with respect to the
later elements of the input. -/
def insertDesc (x : RouteCand) : List RouteCand → List RouteCand
  | [] => [x]
  | y :: ys =>
    if flt (scoreKey x) (scoreKey y) then y :: insertDesc x ys
    else x :: y :: ys

/-- Stable descending sort by `scoreKey`; agrees with CPython's
`sorted(key=lambda r: r.get("score", 0.0), reverse=True)` whenever the keys
contain no NaN (stable sorts under one total key order coincide). -/
def sortDesc : List RouteCand → List RouteCand
  | [] => []
  | x :: xs => insertDesc x (sortDesc xs)

/-- `RouteRankingService.rank_routes`, instrumented with the number of
scorer invocations (the model is called once, batched, on a non-empty
list). The scorer (`predict_batch`/`predict`) is an opaque parameter. -/
def rank_routesC (scorer : List RouteCand → List FVal)
    (routes : List RouteCand) : List RouteCand × ℕ :=
  if routes.isEmpty then ([], 0)
  else (sortDesc (writeScores routes (scorer routes)), 1)

/-- `RouteRankingService.rank_routes`: the returned list. -/
def rank_routes (scorer : List RouteCand → List FVal)
    (routes : List RouteCand) : List RouteCand :=
  (rank_routesC scorer routes).1

/-- Every field of a candidate except `score`. -/
def frameOf (r : RouteCand) : RouteCand := { r with score := none }

/-! ### Concrete ranking inputs -/

/-- A small fixed criteria record. -/
def sampleCriteria : Criteria :=
  { center := ⟨1, 103⟩, radius_km := 5, route_type := "loop" }

/-- A small fixed provider record. -/
def sampleInfo : RouteInfo :=
  { overview_polyline := "poly", duration := "600s", distance := 1000,
    viewport := "vp" }

/-- A concrete candidate (no `"score"` key). -/
def sampleCand (s : String) : RouteCand :=
  { id := s, route_info := sampleInfo,
    waypoints := { count := 2, places := [colPlace "a" 0, colPlace "b" 2],
                   place_ids := ["a", "b"] },
    metadata := { center := (1, 103), search_radius_km := 5 / 2,
                  route_type := "loop", categories_used := ["park"] },
    criteria := sampleCriteria, score := none }

/-- A scorer returning `+inf` for the first candidate and `1.0` for the
second. -/
def infScorer : List RouteCand → List FVal := fun _ => [.inf, .fin 1]

/-- A scorer returning finite scores `0.4, 0.9, 0.4`. -/
def finScorer : List RouteCand → List FVal :=
  fun _ => [.fin (2 / 5), .fin (9 / 10), .fin (2 / 5)]

/-- Two concrete candidates. -/
def rankInput2 : List RouteCand := [sampleCand "r1", sampleCand "r2"]

/-- Three concrete candidates. -/
def rankInput3 : List RouteCand :=
  [sampleCand "r1", sampleCand "r2", sampleCand "r3"]

/-! ### `RouteGenerationService.generate_candidate_routes`

External effects are abstracted as oracle parameters: `findNearby` is one
provider query per category (`none` models a raised exception, which the
code catches and skips), `numChoices` is `random.randint(2, 3)` per attempt
index, `sampleFn` is `random.sample`, `getDirections` is the directions
provider per attempt index (`none` models both a falsy response and a
raised exception), and `bearing` is the transcendental compass-bearing key
used only for sorting. -/

/-- Provider route data returned by `get_directions`. -/
structure RouteData where
  overview_polyline : String
  duration : String
  distance : ℤ
  viewport : String
deriving DecidableEq, Repr

/-- The hard-coded target category list. -/
def target_categories : List String :=
  ["park", "nature", "attraction", "restaurant"]

/-- Steps 1–2: query each category, tag every returned place with the
category that produced it, and concatenate. -/
def buildPool (findNearby : String → Option (List Place)) : List Place :=
  target_categories.flatMap (fun c =>
    ((findNearby c).getD []).map (fun p => { p with search_category := c }))

/-- Stable insertion into an ascending-sorted list: the placement CPython's
stable `list.sort(key=...)` gives an element relative to later input
elements. -/
def insertAsc (key : Place → ℚ) (x : Place) : List Place → List Place
  | [] => [x]
  | y :: ys => if key y < key x then y :: insertAsc key x ys else x :: y :: ys

/-- Stable ascending sort by a rational key, modelling
`waypoints_with_angle.sort(key=lambda x: x[1])`. -/
def sortAsc (key : Place → ℚ) : List Place → List Place
  | [] => []
  | x :: xs => insertAsc key x (sortAsc key xs)

/-- `_optimize_waypoint_order_by_angle`: bearing-ascending stable sort
followed by the two-opt optimizer; sequences of length at most 1 are
returned unchanged. -/
def optimize_by_angle (bearing : LocationPt → LocationPt → ℚ) (fuel : ℕ)
    (center : LocationPt) (waypoints : List Place) : Option (List Place) :=
  if waypoints.length ≤ 1 then some waypoints
  else optimize_waypoint_order_by_two_opt fuel
    (sortAsc (fun w => bearing center w.location) waypoints)

/-- Step 5: the candidate dictionary built for attempt `idx` after a
successful directions call. No `"score"` key is written. Python's
`list(set(...))` for `categories_used` is modelled as `dedup` (its
iteration order is interpreter-defined; the claims compare it as a set). -/
def mkCand (criteria : Criteria) (idx : ℕ) (rd : RouteData)
    (optimized : List Place) : RouteCand :=
  { id := "route_" ++ toString (idx + 1),
    route_info := { overview_polyline := rd.overview_polyline,
                    duration := rd.duration, distance := rd.distance,
                    viewport := rd.viewport },
    waypoints := { count := optimized.length, places := optimized,
                   place_ids := optimized.map (fun p => p.place_id) },
    metadata := { center := (criteria.center.lat, criteria.center.lng),
                  search_radius_km := criteria.radius_km / 2,
                  route_type := criteria.route_type,
                  categories_used :=
                    (optimized.map (fun p => p.search_category)).dedup },
    criteria := criteria,
    score := none }

/-- One iteration of `for route_idx in range(max_routes)`: `none` when the
two-opt optimizer inside never converges (the Python process hangs),
`some none` when the attempt is dropped (directions failure), and
`some (some c)` on success. -/
def assembleAttempt (pool : List Place) (numChoices : ℕ → ℕ)
    (sampleFn : List Place → ℕ → List Place)
    (getDirections : ℕ → List String → Option RouteData)
    (bearing : LocationPt → LocationPt → ℚ) (fuel : ℕ) (criteria : Criteria)
    (idx : ℕ) : Option (Option RouteCand) :=
  match optimize_by_angle bearing fuel criteria.center
      (if pool.length < numChoices idx then pool
       else sampleFn pool (numChoices idx)) with
  | none => none
  | some optimized =>
    match getDirections idx (optimized.map (fun p => p.place_id)) with
    | none => some none
    | some rd => some (some (mkCand criteria idx rd optimized))

/-- The attempt loop over a list of indices, collecting successes. -/
def attemptsFrom (pool : List Place) (numChoices : ℕ → ℕ)
    (sampleFn : List Place → ℕ → List Place)
    (getDirections : ℕ → List String → Option RouteData)
    (bearing : LocationPt → LocationPt → ℚ) (fuel : ℕ) (criteria : Criteria) :
    List ℕ → Option (List RouteCand)
  | [] => some []
  | idx :: rest =>
    match assembleAttempt pool numChoices sampleFn getDirections bearing fuel
        criteria idx with
    | none => none
    | some none =>
      attemptsFrom pool numChoices sampleFn getDirections bearing fuel criteria rest
    | some (some c) =>
      (attemptsFrom pool numChoices sampleFn getDirections bearing fuel criteria
        rest).map (fun cs => c :: cs)

/-- `generate_candidate_routes(criteria, max_routes)`. -/
def generate_candidate_routes (findNearby : String → Option (List Place))
    (numChoices : ℕ → ℕ) (sampleFn : List Place → ℕ → List Place)
    (getDirections : ℕ → List String → Option RouteData)
    (bearing : LocationPt → LocationPt → ℚ) (fuel : ℕ) (criteria : Criteria)
    (max_routes : ℕ) : Option (List RouteCand) :=
  if (buildPool findNearby).isEmpty then some []
  else attemptsFrom (buildPool findNearby) numChoices sampleFn getDirections
    bearing fuel criteria (List.range max_routes)

/-! ### `ResponseBuilderService.build_response` and `RouteService.generate_routes` -/

/-- A waypoint of the externally-visible response. -/
structure ExtWaypoint where
  place_id : String
  name : String
  category : String
  search_category : String
  loc_lat : ℚ
  loc_lng : ℚ
  loc_name : String
  rating : ℚ
  distance_km : ℚ
deriving DecidableEq, Repr

/-- The `geometry` block of an external route. -/
structure RouteGeometry where
  overview_polyline : String
  viewport : String
deriving DecidableEq, Repr

/-- The externally-visible `Route` model. -/
structure ExtRoute where
  id : String
  name : String
  distance : ℤ
  duration : String
  waypoints : List ExtWaypoint
  geometry : RouteGeometry
  metadata : RouteMeta
  score : FVal
deriving DecidableEq, Repr

/-- The externally-visible `RouteResponse` model; `criteria` stays `none`
on the early empty-candidates return of `generate_routes`. -/
structure RouteResponse where
  success : Bool
  message : String
  routes : List ExtRoute
  total_count : ℕ
  criteria : Option Criteria
deriving DecidableEq, Repr

/-- The per-place `Waypoint(...)` construction of `build_response`. -/
def buildWaypoint (p : Place) : ExtWaypoint :=
  { place_id := p.place_id, name := p.name, category := p.category,
    search_category := p.search_category, loc_lat := p.location.lat,
    loc_lng := p.location.lng, loc_name := p.name, rating := p.rating,
    distance_km := p.distance_km }

/-- The route-name synthesis of `build_response` for the `i`-th route. -/
def routeName (i : ℕ) (wps : List ExtWaypoint) : String :=
  match wps with
  | [] => "Route " ++ toString (i + 1)
  | [w] => "Via " ++ w.name
  | [w1, w2] => "Via " ++ w1.name ++ " & " ++ w2.name
  | w1 :: w2 :: rest =>
    "Via " ++ w1.name ++ ", " ++ w2.name ++ " +" ++ toString rest.length ++ " more"

/-- One `Route(...)` record of `build_response` (the missing `"score"` key
defaults to `0.8` on read). -/
def buildRoute (i : ℕ) (rd : RouteCand) : ExtRoute :=
  let wps := rd.waypoints.places.map buildWaypoint
  { id := rd.id, name := routeName i wps, distance := rd.route_info.distance,
    duration := rd.route_info.duration, waypoints := wps,
    geometry := { overview_polyline := rd.route_info.overview_polyline,
                  viewport := rd.route_info.viewport },
    metadata := rd.metadata,
    score := rd.score.getD (FVal.fin (4 / 5)) }

/-- The `for i, route_data in enumerate(routes_data)` loop. In this typed
model every candidate maps successfully (the per-candidate `except` branch
is unreachable), matching the dictionaries the generator produces. -/
def buildRoutes : ℕ → List RouteCand → List ExtRoute
  | _, [] => []
  | i, r :: rs => buildRoute i r :: buildRoutes (i + 1) rs

/-- `ResponseBuilderService.build_response`. -/
def build_response (routes_data : List RouteCand) : RouteResponse :=
  { success := true,
    message := "Successfully generated " ++
      toString (buildRoutes 0 routes_data).length ++ " routes",
    routes := buildRoutes 0 routes_data,
    total_count := (buildRoutes 0 routes_data).length, criteria := none }

/-- `RouteService.generate_routes`: generate, short-circuit on an empty
candidate list, otherwise rank, truncate to 5, build, and attach the
criteria echo. -/
def generate_routes (findNearby : String → Option (List Place))
    (numChoices : ℕ → ℕ) (sampleFn : List Place → ℕ → List Place)
    (getDirections : ℕ → List String → Option RouteData)
    (bearing : LocationPt → LocationPt → ℚ)
    (scorer : List RouteCand → List FVal) (fuel : ℕ) (criteria : Criteria)
    (max_routes : ℕ) : Option RouteResponse :=
  (generate_candidate_routes findNearby numChoices sampleFn getDirections
      bearing fuel criteria max_routes).map
    (fun cands =>
      if cands.isEmpty then build_response []
      else { build_response ((rank_routes scorer cands).take 5) with
             criteria := some criteria })

/-! ### Concrete generation oracles -/

/-- A provider with no places in any category. -/
def findNearbyEmpty : String → Option (List Place) := fun _ => some []

/-- A provider returning a single park and nothing else. -/
def findNearbySingle : String → Option (List Place) := fun c =>
  if c = "park" then some [colPlace "a" 0] else some []

/-- A provider returning two parks and nothing else. -/
def findNearbyTwo : String → Option (List Place) := fun c =>
  if c = "park" then some [colPlace "a" 0, colPlace "b" 2] else some []

/-- A fixed directions-provider record. -/
def sampleRD : RouteData :=
  { overview_polyline := "poly", duration := "600s", distance := 1000,
    viewport := "vp" }

/-! ### Scan lemmas -/

theorem firstJ_eq_none {l : List Place} {i : ℕ} :
    ∀ js : List ℕ, (firstJ l i js = none ↔ ∀ j ∈ js, segPair l i j = false)
  | [] => by simp [firstJ]
  | j :: js => by
    by_cases h : segPair l i j <;>
      simp [firstJ, h, firstJ_eq_none js]

theorem firstJ_eq_some {l : List Place} {i j : ℕ} :
    ∀ {js : List ℕ}, firstJ l i js = some j → j ∈ js ∧ segPair l i j = true
  | [], h => by simp [firstJ] at h
  | j' :: js, h => by
    by_cases hc : segPair l i j'
    · simp [firstJ, hc] at h
      subst h; exact ⟨List.mem_cons_self .., hc⟩
    · simp [firstJ, hc] at h
      rcases firstJ_eq_some h with ⟨hm, hs⟩
      exact ⟨List.mem_cons_of_mem _ hm, hs⟩

theorem firstI_eq_none {l : List Place} :
    ∀ is : List ℕ,
      (firstI l is = none ↔ ∀ i ∈ is, firstJ l i (jRange l i) = none)
  | [] => by simp [firstI]
  | i :: is => by
    cases h : firstJ l i (jRange l i) <;>
      simp [firstI, h, firstI_eq_none is]

theorem firstI_eq_some {l : List Place} {i j : ℕ} :
    ∀ {is : List ℕ}, firstI l is = some (i, j) →
      i ∈ is ∧ firstJ l i (jRange l i) = some j
  | [], h => by simp [firstI] at h
  | i' :: is, h => by
    cases hc : firstJ l i' (jRange l i') with
    | some j' =>
      rw [firstI, hc] at h
      injection h with h; injection h with h1 h2
      subst h1; subst h2
      exact ⟨List.mem_cons_self .., hc⟩
    | none =>
      rw [firstI, hc] at h
      rcases firstI_eq_some h with ⟨hm, hs⟩
      exact ⟨List.mem_cons_of_mem _ hm, hs⟩

theorem mem_jRange {l : List Place} {i j : ℕ} :
    j ∈ jRange l i ↔ i + 2 ≤ j ∧ j + 1 < l.length := by
  rw [jRange, List.mem_range'_1]
  omega

/-- A clean full scan is exactly the absence of intersecting non-adjacent
edge pairs. -/
theorem findCross_eq_none {l : List Place} : findCross l = none ↔ NoCross l := by
  rw [findCross, firstI_eq_none]
  constructor
  · intro h i j hij hj
    have hi : i ∈ List.range (l.length - 3) := by
      rw [List.mem_range]; omega
    have := (firstJ_eq_none _).1 (h i hi)
    exact this j (mem_jRange.2 ⟨hij, hj⟩)
  · intro h i _
    rw [firstJ_eq_none]
    intro j hj
    rcases mem_jRange.1 hj with ⟨h1, h2⟩
    exact h i j h1 h2

theorem findCross_eq_some {l : List Place} {i j : ℕ}
    (h : findCross l = some (i, j)) :
    i + 2 ≤ j ∧ j + 1 < l.length ∧ segPair l i j = true := by
  rcases firstI_eq_some h with ⟨_, hj⟩
  rcases firstJ_eq_some hj with ⟨hm, hs⟩
  rcases mem_jRange.1 hm with ⟨h1, h2⟩
  exact ⟨h1, h2, hs⟩

/-- The 2-opt reversal move permutes the list. -/
theorem reverseSegment_perm (l : List Place) {i j : ℕ} (hij : i ≤ j) :
    (reverseSegment l i j).Perm l := by
  have hsplit : l = l.take (i + 1) ++ ((l.drop (i + 1)).take (j - i) ++ l.drop (j + 1)) := by
    have h1 : l.drop (j + 1) = (l.drop (i + 1)).drop (j - i) := by
      rw [List.drop_drop]
      congr 1
      omega
    rw [h1, List.take_append_drop, List.take_append_drop]
  rw [reverseSegment]
  conv_rhs => rw [hsplit]
  rw [List.append_assoc]
  exact ((List.reverse_perm _).append_right _).append_left _

/-- When the loop returns, the result is a permutation of its input and the
final scan was clean. -/
theorem optimizeLoop_eq_some :
    ∀ {fuel : ℕ} {l r : List Place}, optimizeLoop fuel l = some r →
      r.Perm l ∧ findCross r = none
  | 0, _, _, h => by simp [optimizeLoop] at h
  | fuel + 1, l, r, h => by
    cases hs : twoOptStep l with
    | none =>
      rw [optimizeLoop, hs] at h
      injection h with h
      subst h
      refine ⟨List.Perm.refl _, ?_⟩
      rcases hc : findCross l with _ | ij
      · rfl
      · rw [twoOptStep, hc] at hs; simp at hs
    | some l' =>
      rw [optimizeLoop, hs] at h
      rcases optimizeLoop_eq_some h with ⟨hp, hc⟩
      rcases hfc : findCross l with _ | ij
      · rw [twoOptStep, hfc] at hs; simp at hs
      · rw [twoOptStep, hfc] at hs
        injection hs with hs
        rcases findCross_eq_some hfc with ⟨h1, _, _⟩
        exact ⟨hp.trans (hs ▸ reverseSegment_perm l (by omega)), hc⟩

theorem twoOptStep_loopInputA : twoOptStep loopInputA = some loopInputB := by
  norm_num [twoOptStep, findCross, firstI, firstJ, jRange, segPair, pa,
    extract_point, segments_intersect, orientation, on_segment, eps,
    reverseSegment, loopInputA, loopInputB, colPlace, List.range_succ,
    placeholderPlace]

theorem twoOptStep_loopInputB : twoOptStep loopInputB = some loopInputA := by
  norm_num [twoOptStep, findCross, firstI, firstJ, jRange, segPair, pa,
    extract_point, segments_intersect, orientation, on_segment, eps,
    reverseSegment, loopInputA, loopInputB, colPlace, List.range_succ,
    placeholderPlace]

theorem optimizeLoop_loopInput :
    ∀ fuel : ℕ, optimizeLoop fuel loopInputA = none ∧
      optimizeLoop fuel loopInputB = none
  | 0 => ⟨rfl, rfl⟩
  | fuel + 1 => by
    rw [optimizeLoop, optimizeLoop, twoOptStep_loopInputA, twoOptStep_loopInputB]
    exact ⟨(optimizeLoop_loopInput fuel).2, (optimizeLoop_loopInput fuel).1⟩

/-! ### Claims C1, C2, C9 -/

/-- C1: whenever `optimize_waypoint_order_by_two_opt` returns a sequence, it
is an ordering over the same point set as the input (a permutation of the
input waypoints) and no pair of non-adjacent edges `(i, i+1)`, `(j, j+1)`
with `j ≥ i+2` of the returned sequence satisfies `segments_intersect`. -/
theorem C1_two_opt_returns_noncrossing_permutation
    (fuel : ℕ) (waypoints result : List Place)
    (h : optimize_waypoint_order_by_two_opt fuel waypoints = some result) :
    result.Perm waypoints ∧ NoCross result := by
  rw [optimize_waypoint_order_by_two_opt] at h
  by_cases hlen : waypoints.length < 4
  · rw [if_pos hlen] at h
    injection h with h
    subst h
    refine ⟨List.Perm.refl _, fun i j hij hj => ?_⟩
    exfalso; omega
  · rw [if_neg hlen] at h
    rcases optimizeLoop_eq_some h with ⟨hp, hc⟩
    exact ⟨hp, findCross_eq_none.1 hc⟩

/-- Witness for C1: on the bowtie input the optimizer converges and the
theorem's hypothesis holds concretely. -/
theorem C1_two_opt_returns_noncrossing_permutation_witness :
    bowtieFixed.Perm bowtie ∧ NoCross bowtieFixed :=
  C1_two_opt_returns_noncrossing_permutation 5 bowtie bowtieFixed (by
    norm_num [optimize_waypoint_order_by_two_opt, optimizeLoop, twoOptStep,
      findCross, firstI, firstJ, jRange, segPair, pa, extract_point,
      segments_intersect, orientation, on_segment, eps, reverseSegment,
      bowtie, bowtieFixed, List.range_succ, placeholderPlace])

/-- C2 (refuted): the scan-and-reverse loop does not terminate on the
four collinear waypoints `loopInputA`: for every number of allowed reversal
moves, the loop has still not reached a clean scan, i.e. the Python
`while improved:` loop runs forever on this input. -/
theorem C2_two_opt_diverges_on_collinear_input :
    ∀ fuel : ℕ, optimize_waypoint_order_by_two_opt fuel loopInputA = none := by
  intro fuel
  rw [optimize_waypoint_order_by_two_opt, if_neg (by decide)]
  exact (optimizeLoop_loopInput fuel).1

/-- C9: once the optimizer converges it is idempotent: optimizing a
returned sequence again (with any positive fuel) returns it unchanged. -/
theorem C9_two_opt_idempotent_once_converged
    (fuel g : ℕ) (w r : List Place)
    (h : optimize_waypoint_order_by_two_opt fuel w = some r) :
    optimize_waypoint_order_by_two_opt (g + 1) r = some r := by
  rw [optimize_waypoint_order_by_two_opt] at h ⊢
  by_cases hlen : w.length < 4
  · rw [if_pos hlen] at h
    injection h with h
    subst h
    rw [if_pos hlen]
  · rw [if_neg hlen] at h
    rcases optimizeLoop_eq_some h with ⟨hp, hc⟩
    have hlen' : ¬ r.length < 4 := by rw [hp.length_eq]; exact hlen
    rw [if_neg hlen', optimizeLoop, twoOptStep, hc]
    rfl

/-- Witness for C9: concrete converged run on the bowtie input. -/
theorem C9_two_opt_idempotent_once_converged_witness :
    optimize_waypoint_order_by_two_opt (0 + 1) bowtieFixed = some bowtieFixed :=
  C9_two_opt_idempotent_once_converged 5 0 bowtie bowtieFixed (by
    norm_num [optimize_waypoint_order_by_two_opt, optimizeLoop, twoOptStep,
      findCross, firstI, firstJ, jRange, segPair, pa, extract_point,
      segments_intersect, orientation, on_segment, eps, reverseSegment,
      bowtie, bowtieFixed, List.range_succ, placeholderPlace])

/-! ### Float comparison lemmas -/

theorem flt_irrefl (v : FVal) : flt v v = false := by
  cases v <;> simp [flt]

theorem flt_asymm {a b : FVal} (h : flt a b = true) : flt b a = false := by
  cases a <;> cases b <;> simp_all [flt]
  all_goals linarith

theorem flt_pseudo_trans {a b c : FVal} (hb : b ≠ FVal.nan)
    (h1 : flt a b = false) (h2 : flt b c = false) : flt a c = false := by
  cases a <;> cases b <;> cases c <;> simp_all [flt]
  all_goals linarith

/-! ### Stable descending sort lemmas -/

theorem insertDesc_perm (x : RouteCand) :
    ∀ l : List RouteCand, (insertDesc x l).Perm (x :: l)
  | [] => List.Perm.refl _
  | y :: ys => by
    rw [insertDesc]
    by_cases h : flt (scoreKey x) (scoreKey y) = true
    · rw [if_pos h]
      exact ((insertDesc_perm x ys).cons y).trans (List.Perm.swap x y ys)
    · rw [if_neg h]

theorem sortDesc_perm : ∀ l : List RouteCand, (sortDesc l).Perm l
  | [] => List.Perm.refl _
  | x :: xs => (insertDesc_perm x (sortDesc xs)).trans ((sortDesc_perm xs).cons x)

theorem insertDesc_pairwise {x : RouteCand} :
    ∀ {l : List RouteCand},
      l.Pairwise (fun a b => flt (scoreKey a) (scoreKey b) = false) →
      (∀ y ∈ l, scoreKey y ≠ FVal.nan) →
      (insertDesc x l).Pairwise (fun a b => flt (scoreKey a) (scoreKey b) = false)
  | [], _, _ => by simp [insertDesc]
  | y :: ys, hl, hnn => by
    rw [insertDesc]
    rcases List.pairwise_cons.1 hl with ⟨hy, hys⟩
    by_cases h : flt (scoreKey x) (scoreKey y) = true
    · rw [if_pos h]
      refine List.pairwise_cons.2
        ⟨?_, insertDesc_pairwise hys (fun z hz => hnn z (List.mem_cons_of_mem _ hz))⟩
      intro z hz
      rcases List.mem_cons.1 ((insertDesc_perm x ys).mem_iff.1 hz) with rfl | hzys
      · exact flt_asymm h
      · exact hy z hzys
    · rw [if_neg h]
      have hxy : flt (scoreKey x) (scoreKey y) = false := by simpa using h
      refine List.pairwise_cons.2 ⟨?_, hl⟩
      intro z hz
      rcases List.mem_cons.1 hz with rfl | hzys
      · exact hxy
      · exact flt_pseudo_trans (hnn y (List.mem_cons_self ..)) hxy (hy z hzys)

theorem sortDesc_pairwise :
    ∀ {l : List RouteCand}, (∀ y ∈ l, scoreKey y ≠ FVal.nan) →
      (sortDesc l).Pairwise (fun a b => flt (scoreKey a) (scoreKey b) = false)
  | [], _ => by simp [sortDesc]
  | x :: xs, hnn => by
    rw [sortDesc]
    exact insertDesc_pairwise
      (sortDesc_pairwise (fun y hy => hnn y (List.mem_cons_of_mem _ hy)))
      (fun y hy =>
        hnn y (List.mem_cons_of_mem _ ((sortDesc_perm xs).mem_iff.1 hy)))

theorem insertDesc_filter_key (x : RouteCand) (s : FVal) :
    ∀ l : List RouteCand,
      (insertDesc x l).filter (fun r => decide (scoreKey r = s)) =
        ((x :: l).filter (fun r => decide (scoreKey r = s)))
  | [] => rfl
  | y :: ys => by
    rw [insertDesc]
    by_cases h : flt (scoreKey x) (scoreKey y) = true
    · rw [if_pos h]
      have IH := insertDesc_filter_key x s ys
      by_cases hx : scoreKey x = s
      · have hyn : ¬ scoreKey y = s := by
          intro hy
          rw [hx, ← hy] at h
          rw [flt_irrefl] at h
          exact Bool.false_ne_true h
        simp [List.filter_cons, hx, hyn, IH]
      · simp [List.filter_cons, hx, IH]
    · rw [if_neg h]

theorem sortDesc_filter_key (s : FVal) :
    ∀ l : List RouteCand,
      (sortDesc l).filter (fun r => decide (scoreKey r = s)) =
        l.filter (fun r => decide (scoreKey r = s))
  | [] => rfl
  | x :: xs => by
    rw [sortDesc, insertDesc_filter_key x s (sortDesc xs)]
    simp [List.filter_cons, sortDesc_filter_key s xs]

/-! ### Write-back lemmas -/

theorem writeScores_map_frame :
    ∀ (rs : List RouteCand) (ss : List FVal),
      (writeScores rs ss).map frameOf = rs.map frameOf
  | [], _ => rfl
  | _ :: _, [] => rfl
  | r :: rs, s :: ss => by
    simp only [writeScores, List.map_cons, writeScores_map_frame rs ss]
    rfl

theorem writeScores_score :
    ∀ (rs : List RouteCand) (ss : List FVal), ss.length = rs.length →
      ∀ r ∈ writeScores rs ss, ∃ s ∈ ss, r.score = some s
  | [], _, _, r, hr => by simp [writeScores] at hr
  | _ :: _, [], hlen, _, _ => by simp at hlen
  | r0 :: rs, s0 :: ss, hlen, r, hr => by
    rcases List.mem_cons.1 hr with rfl | hr'
    · exact ⟨s0, List.mem_cons_self .., rfl⟩
    · rcases writeScores_score rs ss (by simpa using hlen) r hr' with ⟨s, hs, h⟩
      exact ⟨s, List.mem_cons_of_mem _ hs, h⟩

theorem rank_routes_cons (scorer : List RouteCand → List FVal)
    (r : RouteCand) (rs : List RouteCand) :
    rank_routes scorer (r :: rs) =
      sortDesc (writeScores (r :: rs) (scorer (r :: rs))) := rfl

/-! ### Claims C3, C5, C8, C10 -/

/-- C3: with one finite score per candidate, `rank_routes` returns exactly
the input candidates (the score-written inputs, as a permutation),
reordered so scores are descending, and candidates of equal score keep
their relative input order (the score-class sublists are unchanged). -/
theorem C3_rank_routes_stable_descending_permutation
    (scorer : List RouteCand → List FVal) (routes : List RouteCand)
    (hlen : (scorer routes).length = routes.length)
    (hfin : ∀ s ∈ scorer routes, ∃ q : ℚ, s = FVal.fin q) :
    (rank_routes scorer routes).Perm (writeScores routes (scorer routes))
    ∧ (rank_routes scorer routes).Pairwise
        (fun a b => qOf (scoreKey b) ≤ qOf (scoreKey a))
    ∧ ∀ s : FVal,
        (rank_routes scorer routes).filter (fun r => decide (scoreKey r = s)) =
          (writeScores routes (scorer routes)).filter
            (fun r => decide (scoreKey r = s)) := by
  cases routes with
  | nil => simp [rank_routes, rank_routesC, writeScores]
  | cons r rs =>
    rw [rank_routes_cons]
    have hkeys : ∀ y ∈ writeScores (r :: rs) (scorer (r :: rs)),
        ∃ q : ℚ, scoreKey y = FVal.fin q := by
      intro y hy
      rcases writeScores_score _ _ hlen y hy with ⟨s, hs, hscore⟩
      rcases hfin s hs with ⟨q, rfl⟩
      exact ⟨q, by simp [scoreKey, hscore]⟩
    have hnn : ∀ y ∈ writeScores (r :: rs) (scorer (r :: rs)),
        scoreKey y ≠ FVal.nan := by
      intro y hy
      rcases hkeys y hy with ⟨q, hq⟩
      simp [hq]
    refine ⟨sortDesc_perm _, ?_, fun s => sortDesc_filter_key s _⟩
    refine (sortDesc_pairwise hnn).imp_of_mem ?_
    intro a b ha hb hab
    rcases hkeys a ((sortDesc_perm _).subset ha) with ⟨qa, hqa⟩
    rcases hkeys b ((sortDesc_perm _).subset hb) with ⟨qb, hqb⟩
    rw [hqa, hqb] at hab ⊢
    simp only [flt, decide_eq_false_iff_not, not_lt] at hab
    simpa [qOf] using hab

/-- Witness for C3: scores `[0.4, 0.9, 0.4]` on three concrete candidates. -/
theorem C3_rank_routes_stable_descending_permutation_witness :
    (rank_routes finScorer rankInput3).Perm
      (writeScores rankInput3 (finScorer rankInput3))
    ∧ (rank_routes finScorer rankInput3).Pairwise
        (fun a b => qOf (scoreKey b) ≤ qOf (scoreKey a))
    ∧ ∀ s : FVal,
        (rank_routes finScorer rankInput3).filter
            (fun r => decide (scoreKey r = s)) =
          (writeScores rankInput3 (finScorer rankInput3)).filter
            (fun r => decide (scoreKey r = s)) :=
  C3_rank_routes_stable_descending_permutation finScorer rankInput3 rfl (by
    intro s hs
    rcases List.mem_cons.1 hs with rfl | hs
    · exact ⟨2 / 5, rfl⟩
    rcases List.mem_cons.1 hs with rfl | hs
    · exact ⟨9 / 10, rfl⟩
    rcases List.mem_cons.1 hs with rfl | hs
    · exact ⟨2 / 5, rfl⟩
    · simp [finScorer] at hs)

/-- C5 counterexample: with scorer output `[+inf, 1.0]` on two distinct
candidates, the non-finite (`+inf`) candidate is placed first, not last —
`rank_routes` applies no defensive demotion of non-finite scores. -/
theorem C5_nonfinite_first_counterexample :
    rank_routes infScorer rankInput2 =
      [setScore (sampleCand "r1") FVal.inf, setScore (sampleCand "r2") (FVal.fin 1)]
    ∧ (sampleCand "r1").id ≠ (sampleCand "r2").id := by
  exact ⟨rfl, by decide⟩

/-- C5 (amended): a non-finite score receives no special treatment:
candidates are ordered by the standard float comparison on scores (no pair
out of order), under which `+inf` is the greatest value — every candidate
placed before an `+inf`-scored candidate is itself `+inf`-scored, so an
infinite score ranks first, not last. -/
theorem C5_amended_nonfinite_ordered_by_float_comparison
    (scorer : List RouteCand → List FVal) (routes : List RouteCand)
    (hlen : (scorer routes).length = routes.length)
    (hnn : ∀ s ∈ scorer routes, s ≠ FVal.nan) :
    (rank_routes scorer routes).Pairwise
      (fun a b => flt (scoreKey a) (scoreKey b) = false)
    ∧ ∀ i j : Fin (rank_routes scorer routes).length, i < j →
        scoreKey ((rank_routes scorer routes).get j) = FVal.inf →
        scoreKey ((rank_routes scorer routes).get i) = FVal.inf := by
  have hmain : (rank_routes scorer routes).Pairwise
      (fun a b => flt (scoreKey a) (scoreKey b) = false) ∧
      ∀ y ∈ rank_routes scorer routes, scoreKey y ≠ FVal.nan := by
    cases routes with
    | nil => simp [rank_routes, rank_routesC]
    | cons r rs =>
      rw [rank_routes_cons]
      have hnn' : ∀ y ∈ writeScores (r :: rs) (scorer (r :: rs)),
          scoreKey y ≠ FVal.nan := by
        intro y hy
        rcases writeScores_score _ _ hlen y hy with ⟨s, hs, hscore⟩
        simp [scoreKey, hscore]
        exact hnn s hs
      exact ⟨sortDesc_pairwise hnn',
        fun y hy => hnn' y ((sortDesc_perm _).subset hy)⟩
  refine ⟨hmain.1, ?_⟩
  intro i j hij hj
  have hflt := List.pairwise_iff_get.1 hmain.1 i j hij
  rw [hj] at hflt
  have hin : scoreKey ((rank_routes scorer routes).get i) ≠ FVal.nan :=
    hmain.2 _ (List.get_mem ..)
  rcases hk : scoreKey ((rank_routes scorer routes).get i) with _ | _ | _ | q
  · exact absurd hk hin
  · rfl
  · rw [hk] at hflt; simp [flt] at hflt
  · rw [hk] at hflt; simp [flt] at hflt

/-- Witness for C5's amended claim: scorer output `[+inf, 1.0]`. -/
theorem C5_amended_nonfinite_ordered_by_float_comparison_witness :
    (rank_routes infScorer rankInput2).Pairwise
      (fun a b => flt (scoreKey a) (scoreKey b) = false)
    ∧ ∀ i j : Fin (rank_routes infScorer rankInput2).length, i < j →
        scoreKey ((rank_routes infScorer rankInput2).get j) = FVal.inf →
        scoreKey ((rank_routes infScorer rankInput2).get i) = FVal.inf :=
  C5_amended_nonfinite_ordered_by_float_comparison infScorer rankInput2 rfl
    (by decide)

/-- C8: on the empty candidate list, `rank_routes` returns the empty list
and the scorer is invoked zero times, for every scorer. -/
theorem C8_rank_routes_empty_no_scorer_call
    (scorer : List RouteCand → List FVal) :
    rank_routesC scorer [] = ([], 0) := rfl

/-- C10: when the scorer returns one score per candidate, ranking changes
only the `score` field: the non-score fields of the output candidates are a
permutation of the non-score fields of the input candidates, and every
output candidate agrees with some input candidate on every field but
`score`. -/
theorem C10_rank_routes_only_score_changes
    (scorer : List RouteCand → List FVal) (routes : List RouteCand)
    (hlen : (scorer routes).length = routes.length) :
    ((rank_routes scorer routes).map frameOf).Perm (routes.map frameOf)
    ∧ ∀ c ∈ rank_routes scorer routes, ∃ c' ∈ routes, frameOf c = frameOf c' := by
  have h1 : ((rank_routes scorer routes).map frameOf).Perm (routes.map frameOf) := by
    cases routes with
    | nil => simp [rank_routes, rank_routesC]
    | cons r rs =>
      rw [rank_routes_cons, ← writeScores_map_frame (r :: rs) (scorer (r :: rs))]
      exact (sortDesc_perm _).map frameOf
  refine ⟨h1, fun c hc => ?_⟩
  have : frameOf c ∈ routes.map frameOf :=
    h1.subset (List.mem_map_of_mem frameOf hc)
  rcases List.mem_map.1 this with ⟨c', hc', heq⟩
  exact ⟨c', hc', heq.symm⟩

/-- Witness for C10: three candidates, scorer `[0.4, 0.9, 0.4]`. -/
theorem C10_rank_routes_only_score_changes_witness :
    ((rank_routes finScorer rankInput3).map frameOf).Perm
      (rankInput3.map frameOf)
    ∧ ∀ c ∈ rank_routes finScorer rankInput3,
        ∃ c' ∈ rankInput3, frameOf c = frameOf c' :=
  C10_rank_routes_only_score_changes finScorer rankInput3 rfl

/-! ### Generation lemmas -/

theorem two_opt_eq_some_perm {fuel : ℕ} {w r : List Place}
    (h : optimize_waypoint_order_by_two_opt fuel w = some r) : r.Perm w := by
  rw [optimize_waypoint_order_by_two_opt] at h
  by_cases hlen : w.length < 4
  · rw [if_pos hlen] at h
    injection h with h
    subst h
    exact List.Perm.refl _
  · rw [if_neg hlen] at h
    exact (optimizeLoop_eq_some h).1

theorem insertAsc_perm (key : Place → ℚ) (x : Place) :
    ∀ l : List Place, (insertAsc key x l).Perm (x :: l)
  | [] => List.Perm.refl _
  | y :: ys => by
    rw [insertAsc]
    by_cases h : key y < key x
    · rw [if_pos h]
      exact ((insertAsc_perm key x ys).cons y).trans (List.Perm.swap x y ys)
    · rw [if_neg h]

theorem sortAsc_perm (key : Place → ℚ) : ∀ l : List Place, (sortAsc key l).Perm l
  | [] => List.Perm.refl _
  | x :: xs =>
    (insertAsc_perm key x (sortAsc key xs)).trans ((sortAsc_perm key xs).cons x)

theorem optimize_by_angle_length {bearing : LocationPt → LocationPt → ℚ}
    {fuel : ℕ} {center : LocationPt} {ws r : List Place}
    (h : optimize_by_angle bearing fuel center ws = some r) :
    r.length = ws.length := by
  rw [optimize_by_angle] at h
  by_cases hlen : ws.length ≤ 1
  · rw [if_pos hlen] at h
    injection h with h
    subst h
    rfl
  · rw [if_neg hlen] at h
    exact (two_opt_eq_some_perm h).length_eq.trans (sortAsc_perm _ ws).length_eq

theorem attemptsFrom_forall {pool : List Place} {numChoices : ℕ → ℕ}
    {sampleFn : List Place → ℕ → List Place}
    {getDirections : ℕ → List String → Option RouteData}
    {bearing : LocationPt → LocationPt → ℚ} {fuel : ℕ} {criteria : Criteria}
    (P : RouteCand → Prop)
    (hP : ∀ idx c, assembleAttempt pool numChoices sampleFn getDirections
      bearing fuel criteria idx = some (some c) → P c) :
    ∀ (idxs : List ℕ) (cands : List RouteCand),
      attemptsFrom pool numChoices sampleFn getDirections bearing fuel criteria
        idxs = some cands → ∀ c ∈ cands, P c
  | [], cands, h => by
    rw [attemptsFrom] at h
    injection h with h
    subst h
    intro c hc
    simp at hc
  | idx :: rest, cands, h => by
    rw [attemptsFrom] at h
    cases ha : assembleAttempt pool numChoices sampleFn getDirections bearing
        fuel criteria idx with
    | none => rw [ha] at h; cases h
    | some o =>
      cases o with
      | none =>
        rw [ha] at h
        exact attemptsFrom_forall P hP rest cands h
      | some c0 =>
        rw [ha] at h
        rcases Option.map_eq_some'.1 h with ⟨cs, hcs, rfl⟩
        intro c hc
        rcases List.mem_cons.1 hc with rfl | hc'
        · exact hP idx c ha
        · exact attemptsFrom_forall P hP rest cs hcs c hc'

theorem assembleAttempt_waypoint_count {pool : List Place}
    {numChoices : ℕ → ℕ} {sampleFn : List Place → ℕ → List Place}
    {getDirections : ℕ → List String → Option RouteData}
    {bearing : LocationPt → LocationPt → ℚ} {fuel : ℕ} {criteria : Criteria}
    {idx : ℕ} {c : RouteCand}
    (hpool : 2 ≤ pool.length)
    (hnum : numChoices idx = 2 ∨ numChoices idx = 3)
    (hsample : ∀ n, n ≤ pool.length → (sampleFn pool n).length = n)
    (h : assembleAttempt pool numChoices sampleFn getDirections bearing fuel
      criteria idx = some (some c)) :
    c.waypoints.count = 2 ∨ c.waypoints.count = 3 := by
  rw [assembleAttempt] at h
  cases ho : optimize_by_angle bearing fuel criteria.center
      (if pool.length < numChoices idx then pool
       else sampleFn pool (numChoices idx)) with
  | none => rw [ho] at h; cases h
  | some optimized =>
    rw [ho] at h
    dsimp only at h
    cases hd : getDirections idx (optimized.map fun p => p.place_id) with
    | none => rw [hd] at h; simp at h
    | some rd =>
      rw [hd] at h
      injection h with h
      injection h with h
      subst h
      have hlen := optimize_by_angle_length ho
      by_cases hc : pool.length < numChoices idx
      · rw [if_pos hc] at hlen
        simp only [mkCand]
        omega
      · rw [if_neg hc, hsample _ (Nat.le_of_not_lt hc)] at hlen
        simp only [mkCand]
        omega

theorem assembleAttempt_cand_shape {pool : List Place}
    {numChoices : ℕ → ℕ} {sampleFn : List Place → ℕ → List Place}
    {getDirections : ℕ → List String → Option RouteData}
    {bearing : LocationPt → LocationPt → ℚ} {fuel : ℕ} {criteria : Criteria}
    {idx : ℕ} {c : RouteCand}
    (h : assembleAttempt pool numChoices sampleFn getDirections bearing fuel
      criteria idx = some (some c)) :
    c.score = none ∧ c.metadata.categories_used.Nodup ∧
      c.metadata.categories_used.toFinset =
        (c.waypoints.places.map (fun p => p.search_category)).toFinset := by
  rw [assembleAttempt] at h
  cases ho : optimize_by_angle bearing fuel criteria.center
      (if pool.length < numChoices idx then pool
       else sampleFn pool (numChoices idx)) with
  | none => rw [ho] at h; cases h
  | some optimized =>
    rw [ho] at h
    dsimp only at h
    cases hd : getDirections idx (optimized.map fun p => p.place_id) with
    | none => rw [hd] at h; simp at h
    | some rd =>
      rw [hd] at h
      injection h with h
      injection h with h
      subst h
      refine ⟨rfl, List.nodup_dedup _, ?_⟩
      show ((optimized.map (fun p => p.search_category)).dedup).toFinset = _
      ext a
      simp [List.mem_dedup, mkCand]

theorem attemptsFrom_directions_none {pool : List Place}
    {numChoices : ℕ → ℕ} {sampleFn : List Place → ℕ → List Place}
    {getDirections : ℕ → List String → Option RouteData}
    {bearing : LocationPt → LocationPt → ℚ} {fuel : ℕ} {criteria : Criteria}
    (hdir : ∀ idx ids, getDirections idx ids = none) :
    ∀ idxs : List ℕ,
      attemptsFrom pool numChoices sampleFn getDirections bearing fuel criteria
        idxs = none ∨
      attemptsFrom pool numChoices sampleFn getDirections bearing fuel criteria
        idxs = some []
  | [] => Or.inr rfl
  | idx :: rest => by
    rw [attemptsFrom]
    cases ha : assembleAttempt pool numChoices sampleFn getDirections bearing
        fuel criteria idx with
    | none => exact Or.inl rfl
    | some o =>
      cases o with
      | none => exact attemptsFrom_directions_none hdir rest
      | some c0 =>
        exfalso
        rw [assembleAttempt] at ha
        cases ho : optimize_by_angle bearing fuel criteria.center
            (if pool.length < numChoices idx then pool
             else sampleFn pool (numChoices idx)) with
        | none => rw [ho] at ha; cases ha
        | some optimized =>
          rw [ho] at ha
          dsimp only at ha
          rw [hdir idx (optimized.map fun p => p.place_id)] at ha
          simp at ha

/-! ### Claims C4, C6, C7 -/

/-- C4: when the sampler pool is empty, or every directions call fails,
`generate_routes` returns a successful response with no routes: `success`
is true, `routes` is empty, and `total_count` is 0. -/
theorem C4_no_candidates_yields_successful_empty_response
    (findNearby : String → Option (List Place)) (numChoices : ℕ → ℕ)
    (sampleFn : List Place → ℕ → List Place)
    (getDirections : ℕ → List String → Option RouteData)
    (bearing : LocationPt → LocationPt → ℚ)
    (scorer : List RouteCand → List FVal) (fuel : ℕ) (criteria : Criteria)
    (max_routes : ℕ)
    (h : buildPool findNearby = [] ∨ ∀ idx ids, getDirections idx ids = none)
    (resp : RouteResponse)
    (hr : generate_routes findNearby numChoices sampleFn getDirections bearing
      scorer fuel criteria max_routes = some resp) :
    resp.success = true ∧ resp.routes = [] ∧ resp.total_count = 0 := by
  rw [generate_routes] at hr
  rcases Option.map_eq_some'.1 hr with ⟨cands, hc, hresp⟩
  have hcand : cands = [] := by
    rw [generate_candidate_routes] at hc
    rcases h with hpool | hdir
    · rw [hpool] at hc
      injection hc with hc
      exact hc.symm
    · by_cases hp : (buildPool findNearby).isEmpty
      · rw [if_pos hp] at hc
        injection hc with hc
        exact hc.symm
      · rw [if_neg hp] at hc
        rcases attemptsFrom_directions_none hdir (List.range max_routes) with hn | he
        · rw [hn] at hc; cases hc
        · rw [he] at hc
          injection hc with hc
          exact hc.symm
  subst hcand
  simp only [List.isEmpty_nil, if_true] at hresp
  subst hresp
  exact ⟨rfl, rfl, rfl⟩

/-- Witness for C4: a provider with no places in any category. -/
theorem C4_no_candidates_yields_successful_empty_response_witness :
    (build_response []).success = true ∧ (build_response []).routes = [] ∧
      (build_response []).total_count = 0 :=
  C4_no_candidates_yields_successful_empty_response findNearbyEmpty
    (fun _ => 2) (fun l n => l.take n) (fun _ _ => none) (fun _ _ => 0)
    finScorer 5 sampleCriteria 20 (Or.inl rfl) (build_response []) rfl

/-- C6 counterexample: a successful assembly attempt (two-park pool, one
attempt, directions succeed) produces a candidate whose `score` field is
absent (`none`), not initialized to any neutral default value. -/
theorem C6_score_left_unset_counterexample :
    (generate_candidate_routes findNearbyTwo (fun _ => 2) (fun l n => l.take n)
        (fun _ _ => some sampleRD) (fun _ _ => 0) 5 sampleCriteria 1).map
      (fun cs => cs.map (fun c => c.score)) = some [none] := rfl

/-- C6 (amended): every candidate returned by a successful assembly attempt
has no `score` field at all (readers later default it), and its
`categories_used` is a duplicate-free list equal, as a set, to the search
categories of its chosen waypoints. -/
theorem C6_amended_score_unset_categories_distinct
    (findNearby : String → Option (List Place)) (numChoices : ℕ → ℕ)
    (sampleFn : List Place → ℕ → List Place)
    (getDirections : ℕ → List String → Option RouteData)
    (bearing : LocationPt → LocationPt → ℚ) (fuel : ℕ) (criteria : Criteria)
    (max_routes : ℕ) (cands : List RouteCand)
    (h : generate_candidate_routes findNearby numChoices sampleFn getDirections
      bearing fuel criteria max_routes = some cands) :
    ∀ c ∈ cands, c.score = none ∧ c.metadata.categories_used.Nodup ∧
      c.metadata.categories_used.toFinset =
        (c.waypoints.places.map (fun p => p.search_category)).toFinset := by
  rw [generate_candidate_routes] at h
  by_cases hp : (buildPool findNearby).isEmpty
  · rw [if_pos hp] at h
    injection h with h
    subst h
    intro c hc
    simp at hc
  · rw [if_neg hp] at h
    exact attemptsFrom_forall _ (fun idx c hc => assembleAttempt_cand_shape hc)
      _ _ h

/-- Witness for C6's amended claim: single-park pool, one attempt. -/
theorem C6_amended_score_unset_categories_distinct_witness :
    (mkCand sampleCriteria 0 sampleRD [colPlace "a" 0]).score = none ∧
      (mkCand sampleCriteria 0 sampleRD
        [colPlace "a" 0]).metadata.categories_used.Nodup ∧
      (mkCand sampleCriteria 0 sampleRD
          [colPlace "a" 0]).metadata.categories_used.toFinset =
        ((mkCand sampleCriteria 0 sampleRD
            [colPlace "a" 0]).waypoints.places.map
          (fun p => p.search_category)).toFinset :=
  C6_amended_score_unset_categories_distinct findNearbySingle (fun _ => 2)
    (fun l n => l.take n) (fun _ _ => some sampleRD) (fun _ _ => 0) 5
    sampleCriteria 1 [mkCand sampleCriteria 0 sampleRD [colPlace "a" 0]] rfl
    (mkCand sampleCriteria 0 sampleRD [colPlace "a" 0])
    (List.mem_cons_self ..)

/-- C7 counterexample: with a pool containing exactly one place, a
successful assembly attempt produces a candidate with a single waypoint,
so the waypoint count is neither 2 nor 3. -/
theorem C7_single_candidate_pool_counterexample :
    (generate_candidate_routes findNearbySingle (fun _ => 2)
        (fun l n => l.take n) (fun _ _ => some sampleRD) (fun _ _ => 0) 5
        sampleCriteria 1).map
      (fun cs => cs.map (fun c => c.waypoints.count)) = some [1] := rfl

/-- C7 (amended): a route attempt uses `min(chosen count, pool size)`
waypoints; whenever the sampled pool holds at least 2 candidates, the
chosen count is drawn from {2, 3} and the sampler honours the requested
size, every assembled candidate has 2 or 3 waypoints. -/
theorem C7_amended_waypoint_count_two_or_three
    (findNearby : String → Option (List Place)) (numChoices : ℕ → ℕ)
    (sampleFn : List Place → ℕ → List Place)
    (getDirections : ℕ → List String → Option RouteData)
    (bearing : LocationPt → LocationPt → ℚ) (fuel : ℕ) (criteria : Criteria)
    (max_routes : ℕ)
    (hpool : 2 ≤ (buildPool findNearby).length)
    (hnum : ∀ i, numChoices i = 2 ∨ numChoices i = 3)
    (hsample : ∀ (l : List Place) (n : ℕ), n ≤ l.length →
      (sampleFn l n).length = n)
    (cands : List RouteCand)
    (h : generate_candidate_routes findNearby numChoices sampleFn getDirections
      bearing fuel criteria max_routes = some cands) :
    ∀ c ∈ cands, c.waypoints.count = 2 ∨ c.waypoints.count = 3 := by
  rw [generate_candidate_routes] at h
  by_cases hp : (buildPool findNearby).isEmpty
  · rw [if_pos hp] at h
    injection h with h
    subst h
    intro c hc
    simp at hc
  · rw [if_neg hp] at h
    exact attemptsFrom_forall _
      (fun idx c hc =>
        assembleAttempt_waypoint_count hpool (hnum idx)
          (fun n hn => hsample _ n hn) hc)
      _ _ h

/-- Witness for C7's amended claim: two-park pool, one attempt. -/
theorem C7_amended_waypoint_count_two_or_three_witness :
    (mkCand sampleCriteria 0 sampleRD
        [colPlace "a" 0, colPlace "b" 2]).waypoints.count = 2 ∨
      (mkCand sampleCriteria 0 sampleRD
        [colPlace "a" 0, colPlace "b" 2]).waypoints.count = 3 :=
  C7_amended_waypoint_count_two_or_three findNearbyTwo (fun _ => 2)
    (fun l n => l.take n) (fun _ _ => some sampleRD) (fun _ _ => 0) 5
    sampleCriteria 1 (by decide) (fun _ => Or.inl rfl)
    (fun l n hn => by simp [List.length_take]; omega)
    [mkCand sampleCriteria 0 sampleRD [colPlace "a" 0, colPlace "b" 2]] rfl
    (mkCand sampleCriteria 0 sampleRD [colPlace "a" 0, colPlace "b" 2])
    (List.mem_cons_self ..)

end MyTrail
